import Mathlib

/-!
Verification of the syncpay distributed payment service against its
specification.  The Lean definitions below are shallow embeddings of the
Python sources:

* `src/consensus/raft_consensus.py` — Raft-style consensus component
* `src/replication/replicator.py` — payment replication component
* `src/replication/deduplication.py` — deduplication filter
* `src/time_sync/time_synchronizer.py` — NTP-style time synchronisation

Machine integers are modelled as `Nat`; Python floats that are only ever
added, scaled and compared are modelled as `Rat`; Python dicts are modelled
as association lists read through a first-match lookup; Python sets are
modelled as lists with insert-if-absent.
-/

namespace Syncpay

/-! ## Consensus data model (raft_consensus.py) -/

/-- The `RaftState` enum of the source. -/
inductive RaftState where
  | FOLLOWER
  | CANDIDATE
  | LEADER
deriving DecidableEq, Repr

/-- First-match association-list lookup, the reading discipline for the
Python dicts in the model (assignment is modelled as a shadowing cons). -/
def alookup (k : String) : List (String × β) → Option β
  | [] => none
  | p :: rest => if p.1 = k then some p.2 else alookup k rest

/-- The mutable state of the `RaftConsensus` class that the verified
operations touch.  `log` holds `(term, transaction_id)` pairs; the election
timer is represented by its last reset instant `last_election_time`. -/
structure RaftConsensus where
  state : RaftState
  current_term : Nat
  voted_for : Option String
  current_leader : Option String
  log : List (Nat × String)
  commit_index : Nat
  last_applied : Nat
  next_index : List (String × Nat)
  match_index : List (String × Nat)
  last_election_time : Rat
deriving DecidableEq

/-- Payload of an incoming AppendEntries RPC, with the dict defaults of
`data.get` already applied. -/
structure AppendEntriesArgs where
  term : Nat
  leader_id : String
  prev_log_index : Nat
  prev_log_term : Nat
  entries : List (Nat × String)
  leader_commit : Nat
deriving DecidableEq

/-- Payload of an incoming RequestVote RPC. -/
structure RequestVoteArgs where
  term : Nat
  candidate_id : String
  last_log_index : Nat
  last_log_term : Nat
deriving DecidableEq

/-- The `{"term": …, "success": …}` reply of `_handle_append_entries`. -/
structure AppendEntriesReply where
  term : Nat
  success : Bool
deriving DecidableEq

/-- The `{"term": …, "vote_granted": …}` reply of `_handle_request_vote`. -/
structure RequestVoteReply where
  term : Nat
  vote_granted : Bool
deriving DecidableEq

/-- `_is_log_consistent`: accept `prev_log_index = 0`; reject an index past
the log; otherwise compare the stored term at `prev_log_index`. -/
def is_log_consistent (log : List (Nat × String)) (prev_log_index prev_log_term : Nat) : Bool :=
  if prev_log_index = 0 then true
  else if log.length < prev_log_index then false
  else match log[prev_log_index - 1]? with
    | some e => e.1 == prev_log_term
    | none => false

/-- `_is_log_up_to_date`: the candidate log wins on a larger last term, or
on an equal last term with an index at least as large. -/
def is_log_up_to_date (log : List (Nat × String)) (a : RequestVoteArgs) : Bool :=
  let ourLastTerm := match log.getLast? with | some e => e.1 | none => 0
  let ourLastIndex := log.length
  decide (ourLastTerm < a.last_log_term ∨
    (a.last_log_term = ourLastTerm ∧ ourLastIndex ≤ a.last_log_index))

/-- `_handle_append_entries`.  Mirrors the source line by line: reject a
stale term without touching state; adopt a strictly larger term (becoming
Follower and clearing the vote); record the leader and reset the election
timer (`now` models `time.time()`); reject on log inconsistency; truncate
and append only when `entries` is non-empty; raise `commit_index` to
`min(leader_commit, len(log))` only when `leader_commit` is larger. -/
def handle_append_entries (now : Rat) (a : AppendEntriesArgs) (s : RaftConsensus) :
    RaftConsensus × AppendEntriesReply :=
  if a.term < s.current_term then
    (s, ⟨s.current_term, false⟩)
  else
    let s1 := if s.current_term < a.term then
        { s with current_term := a.term, state := RaftState.FOLLOWER, voted_for := none }
      else s
    let s2 := { s1 with current_leader := some a.leader_id, last_election_time := now }
    if is_log_consistent s2.log a.prev_log_index a.prev_log_term then
      let s3 := if a.entries.isEmpty then s2
        else { s2 with log := s2.log.take a.prev_log_index ++ a.entries }
      let s4 := if s3.commit_index < a.leader_commit then
          { s3 with commit_index := min a.leader_commit s3.log.length }
        else s3
      (s4, ⟨s4.current_term, true⟩)
    else
      (s2, ⟨s2.current_term, false⟩)

/-- `_handle_request_vote`.  Reject a stale term; adopt a strictly larger
term (becoming Follower and clearing the vote); grant when the vote slot is
free or already ours and the candidate log is up to date; on grant record
the vote and reset the election timer. -/
def handle_request_vote (now : Rat) (a : RequestVoteArgs) (s : RaftConsensus) :
    RaftConsensus × RequestVoteReply :=
  if a.term < s.current_term then
    (s, ⟨s.current_term, false⟩)
  else
    let s1 := if s.current_term < a.term then
        { s with current_term := a.term, state := RaftState.FOLLOWER, voted_for := none }
      else s
    let grant := decide (s1.voted_for = none ∨ s1.voted_for = some a.candidate_id) &&
      is_log_up_to_date s1.log a
    if grant then
      ({ s1 with voted_for := some a.candidate_id, last_election_time := now },
        ⟨s1.current_term, true⟩)
    else
      (s1, ⟨s1.current_term, false⟩)

/-- `_apply_committed_entries`: the loop only ever advances `last_applied`
up to `commit_index` (the body stores nothing), so its state effect is the
assignment `last_applied := commit_index`. -/
def apply_committed_entries (s : RaftConsensus) : RaftConsensus :=
  { s with last_applied := s.commit_index }

/-- `propose_transaction`.  `replicationOk` models the outcome of
`_replicate_to_majority` (network I/O).  A non-leader fails immediately;
otherwise the `(current_term, id)` entry is appended, and only on a
successful quorum is `commit_index` advanced to the new length and the
committed entries applied. -/
def propose_transaction (txnId : String) (replicationOk : Bool) (s : RaftConsensus) :
    RaftConsensus × Bool :=
  if s.state ≠ RaftState.LEADER then (s, false)
  else
    let s1 := { s with log := s.log ++ [(s.current_term, txnId)] }
    if replicationOk then
      if s1.commit_index < s1.log.length then
        (apply_committed_entries { s1 with commit_index := s1.log.length }, true)
      else (s1, true)
    else (s1, false)

/-- `handle_peer_recovery`: peer tracking is re-initialised only when the
peer is absent from `next_index`. -/
def handle_peer_recovery (peer : String) (s : RaftConsensus) : RaftConsensus :=
  match alookup peer s.next_index with
  | some _ => s
  | none =>
      { s with next_index := (peer, s.log.length + 1) :: s.next_index,
               match_index := (peer, 0) :: s.match_index }

/-- The operations of the consensus component that mutate commit state. -/
inductive RaftOp where
  | propose (txnId : String) (replicationOk : Bool)
  | appendEntries (now : Rat) (a : AppendEntriesArgs)
  | applyCommitted

/-- Run one consensus operation, discarding replies. -/
def runRaftOp (op : RaftOp) (s : RaftConsensus) : RaftConsensus :=
  match op with
  | .propose txnId ok => (propose_transaction txnId ok s).1
  | .appendEntries now a => (handle_append_entries now a s).1
  | .applyCommitted => apply_committed_entries s

/-- Run a sequence of consensus operations. -/
def runRaftOps (ops : List RaftOp) (s : RaftConsensus) : RaftConsensus :=
  ops.foldl (fun s op => runRaftOp op s) s

/-- The freshly constructed `RaftConsensus` state. -/
def initRaft : RaftConsensus :=
  { state := RaftState.FOLLOWER, current_term := 0, voted_for := none,
    current_leader := none, log := [], commit_index := 0, last_applied := 0,
    next_index := [], match_index := [], last_election_time := 0 }

/-- A Candidate at term 5, used to exhibit the equal-term behaviour of
`handle_append_entries`. -/
def c1ExState : RaftConsensus :=
  { state := RaftState.CANDIDATE, current_term := 5, voted_for := some "node-a",
    current_leader := none, log := [], commit_index := 0, last_applied := 0,
    next_index := [], match_index := [], last_election_time := 0 }

/-- An AppendEntries request whose term equals the term of `c1ExState`. -/
def c1ExArgs : AppendEntriesArgs :=
  { term := 5, leader_id := "node-b", prev_log_index := 0, prev_log_term := 0,
    entries := [], leader_commit := 0 }

/-- The commit-bookkeeping invariant claimed by the specification:
`last_applied ≤ commit_index ≤ len(log)`. -/
def commit_invariant (s : RaftConsensus) : Prop :=
  s.last_applied ≤ s.commit_index ∧ s.commit_index ≤ s.log.length

instance (s : RaftConsensus) : Decidable (commit_invariant s) := by
  unfold commit_invariant; infer_instance

/-- First step of the C2 counterexample: an AppendEntries that installs two
entries and commits both. -/
def c2Op1 : RaftOp :=
  .appendEntries 0 ⟨1, "node-b", 0, 0, [(1, "t1"), (1, "t2")], 2⟩

/-- Second step of the C2 counterexample: an AppendEntries from position 0
carrying a single entry, which truncates the log below the commit index. -/
def c2Op2 : RaftOp :=
  .appendEntries 0 ⟨1, "node-b", 0, 0, [(1, "t3")], 0⟩

/-- A leader state used to exercise `propose_transaction`. -/
def exLeader : RaftConsensus := { initRaft with state := RaftState.LEADER }

/-- A peer-tracking state in which `peer-1` is already present. -/
def c7ExState : RaftConsensus :=
  { initRaft with next_index := [("peer-1", 5)], match_index := [("peer-1", 3)] }

/-! ## Time synchronisation data model (time_synchronizer.py)

Clock readings and offsets are Python floats that are only added, scaled
and compared here, so they are modelled exactly over `Rat`.  The outlier
test `|x - mean| <= 2 * stdev` of `_filter_outliers` is expressed by
squaring both non-negative sides, which avoids the square root of
`statistics.stdev`: `(x - mean)^2 * (n-1) <= 4 * sum_of_squared_deviations`
is equivalent over the rationals. -/

/-- The sample mean of `statistics.mean`. -/
def sampleMean (l : List Rat) : Rat := l.sum / l.length

/-- The sum of squared deviations from `m`. -/
def sqDevSum (l : List Rat) (m : Rat) : Rat := (l.map (fun x => (x - m) ^ 2)).sum

/-- `_filter_outliers`: return everything when fewer than 3 samples;
otherwise keep the offsets within `outlier_threshold = 2` standard
deviations of the mean (stated with both sides squared). -/
def filter_outliers (offsets : List Rat) : List Rat :=
  if offsets.length < 3 then offsets
  else
    let m := sampleMean offsets
    let ss := sqDevSum offsets m
    offsets.filter (fun x =>
      decide ((x - m) ^ 2 * ((offsets.length : Rat) - 1) ≤ 4 * ss))

/-- The linearly weighted sum `sum (x_i * w_i)` with weights `w, w+1, …`. -/
def weightedSum : List Rat → Nat → Rat
  | [], _ => 0
  | x :: xs, w => x * w + weightedSum xs (w + 1)

/-- `_calculate_offset`.  `sampleOffsets` models the offset components of
`self.time_samples`.  Keep the last `max_samples = 10` entries; do nothing
below `min_samples = 3`; filter outliers (falling back to the unfiltered
list when the filter empties it); take the linearly weighted mean with
weights `1..n`; smooth against the current offset with factor
`smoothing_factor = 0.3`. -/
def calculate_offset (currentOffset : Rat) (sampleOffsets : List Rat) : Rat :=
  if sampleOffsets.isEmpty then currentOffset
  else
    let recent := sampleOffsets.drop (sampleOffsets.length - 10)
    if recent.length < 3 then currentOffset
    else
      let filtered := filter_outliers recent
      let survivors := if filtered.isEmpty then recent else filtered
      let totalWeight : Rat := (((List.range survivors.length).map (· + 1)).sum : Nat)
      let weighted := weightedSum survivors 1 / totalWeight
      (1 - 3/10) * currentOffset + 3/10 * weighted

/-- `get_synchronized_time`: the local clock reading plus the current
offset. -/
def get_synchronized_time (localTime offset : Rat) : Rat := localTime + offset

/-! ## Deduplication and replication data model
(deduplication.py, replicator.py, models.py)

A `PaymentTransaction.amount` is a Python float that is only ever
interpolated into hash-input strings, so it is carried here by its two
renderings: `amountRepr` models the f-string `\x7bamount\x7d` and
`amountRepr2f` models `\x7bamount:.2f\x7d` (for example, for the float
`0.25` both renderings are the string `0.25`).  SHA-256 itself is an
arbitrary deterministic function of the hashed string, so the definitions
take the hash as a parameter `hashFn` and the theorems quantify over it;
properties of hash inputs are stated as string equalities. -/

/-- The fields of `PaymentTransaction` in `models.py`. -/
structure PaymentTransaction where
  id : String
  amountRepr : String
  amountRepr2f : String
  sender : String
  receiver : String
  timestamp : Rat
  status : String
  node_id : String
deriving DecidableEq

/-- The string hashed by `_compute_transaction_hash`:
`"\x7bamount\x7d:\x7bsender\x7d:\x7breceiver\x7d"`, with
`":\x7bnode_id\x7d"` appended when `node_id` is truthy (non-empty). -/
def transaction_content (t : PaymentTransaction) : String :=
  let base := t.amountRepr ++ ":" ++ t.sender ++ ":" ++ t.receiver
  if t.node_id = "" then base else base ++ ":" ++ t.node_id

/-- Python `str.lower` on one character, for the ASCII strings handled
here. -/
def asciiLowerChar (c : Char) : Char :=
  if 'A' ≤ c ∧ c ≤ 'Z' then Char.ofNat (c.toNat + 32) else c

/-- Python `str.lower` for ASCII strings. -/
def pyLower (s : String) : String := ⟨s.data.map asciiLowerChar⟩

/-- Python `str.strip`: drop whitespace from both ends. -/
def pyStrip (s : String) : String :=
  ⟨((s.data.dropWhile Char.isWhitespace).reverse.dropWhile Char.isWhitespace).reverse⟩

/-- The string hashed by `_compute_semantic_hash`: the two-decimal amount
and the lower-cased, stripped sender and receiver, with no node id. -/
def semantic_content (t : PaymentTransaction) : String :=
  t.amountRepr2f ++ ":" ++ pyStrip (pyLower t.sender) ++ ":" ++ pyStrip (pyLower t.receiver)

/-- The hash-input string asserted by the specification sentence: the
two-decimal amount, the lower-cased stripped sender, the lower-cased
stripped receiver, and the origin node, joined by colons.  Written from the
claim wording for comparison against the source definitions. -/
def claimed_content (t : PaymentTransaction) : String :=
  t.amountRepr2f ++ ":" ++ pyStrip (pyLower t.sender) ++ ":" ++ pyStrip (pyLower t.receiver)
    ++ ":" ++ t.node_id

/-- The mutable state of `DeduplicationManager`.  Dicts are association
lists read by `alookup` (assignment is a shadowing cons), sets are lists
with insert-if-absent. -/
structure DeduplicationManager where
  transaction_hashes : List (String × String)
  hash_to_transactions : List (String × List String)
  processed_transactions : List String
  duplicate_attempts : List (String × Nat)
  bloom_filter : List String
  transaction_timestamps : List (String × Rat)
deriving DecidableEq

/-- The fresh `DeduplicationManager` state. -/
def emptyDedup : DeduplicationManager :=
  { transaction_hashes := [], hash_to_transactions := [],
    processed_transactions := [], duplicate_attempts := [],
    bloom_filter := [], transaction_timestamps := [] }

/-- The scan of `is_duplicate_transaction` over a hash bucket: the first
registered id different from the incoming one. -/
def find_other_id (tid : String) : List String → Option String
  | [] => none
  | x :: xs => if x = tid then find_other_id tid xs else some x

/-- `self.duplicate_attempts[tid] += 1` on a `defaultdict(int)`. -/
def bump_attempt (tid : String) : List (String × Nat) → List (String × Nat)
  | [] => [(tid, 1)]
  | p :: rest => if p.1 = tid then (p.1, p.2 + 1) :: rest else p :: bump_attempt tid rest

/-- `self.hash_to_transactions[h].append(tid)` on a `defaultdict(list)`. -/
def bucket_append (h tid : String) : List (String × List String) → List (String × List String)
  | [] => [(h, [tid])]
  | p :: rest => if p.1 = h then (p.1, p.2 ++ [tid]) :: rest else p :: bucket_append h tid rest

/-- `is_duplicate_transaction`.  Method 1: a known transaction id is a
duplicate of itself.  Method 2: when the content hash passes the bloom
pre-filter and its bucket holds an id different from the incoming one, the
first such id is the original.  A detected duplicate also bumps the
duplicate-attempt counter of the original id. -/
def is_duplicate_transaction (hashFn : String → String) (d : DeduplicationManager)
    (t : PaymentTransaction) : (Bool × Option String) × DeduplicationManager :=
  if t.id ∈ d.processed_transactions then
    ((true, some t.id), { d with duplicate_attempts := bump_attempt t.id d.duplicate_attempts })
  else
    let contentHash := hashFn (transaction_content t)
    if contentHash ∈ d.bloom_filter then
      match alookup contentHash d.hash_to_transactions with
      | some bucket =>
        match find_other_id t.id bucket with
        | some orig =>
            ((true, some orig),
              { d with duplicate_attempts := bump_attempt orig d.duplicate_attempts })
        | none => ((false, none), d)
      | none => ((false, none), d)
    else ((false, none), d)

/-- `register_transaction` (`now` models `time.time()`): store the content
hash under the id, append the id to the hash bucket, mark the id processed,
record the timestamp, and add the hash to the bloom set. -/
def register_transaction (hashFn : String → String) (now : Rat)
    (t : PaymentTransaction) (d : DeduplicationManager) : DeduplicationManager :=
  let contentHash := hashFn (transaction_content t)
  { transaction_hashes := (t.id, contentHash) :: d.transaction_hashes,
    hash_to_transactions := bucket_append contentHash t.id d.hash_to_transactions,
    processed_transactions := d.processed_transactions.insert t.id,
    duplicate_attempts := d.duplicate_attempts,
    bloom_filter := d.bloom_filter.insert contentHash,
    transaction_timestamps := (t.id, now) :: d.transaction_timestamps }

/-- The host state touched by `handle_replication_request`: the
`node.transactions` store, the `node.transaction_log`, and the
deduplication state. -/
structure Node where
  transactions : List (String × PaymentTransaction)
  transaction_log : List PaymentTransaction
  dedup : DeduplicationManager
deriving DecidableEq

/-- The fresh host state. -/
def emptyNode : Node :=
  { transactions := [], transaction_log := [], dedup := emptyDedup }

/-- The status field of a `/replicate` response. -/
inductive RepStatus where
  | success (tid : String)
  | duplicate (original : Option String)
  | already_exists (tid : String)
  | error
deriving DecidableEq

/-- `handle_replication_request`.  The request body is `some t` when it
carries a well-formed transaction (the field-presence validation of the
source collapses to this option in the typed model) and `none` otherwise.
Duplicates are rejected first; then an id already in the store answers
`already_exists`; otherwise the record is stored, logged and registered. -/
def handle_replication_request (hashFn : String → String) (now : Rat)
    (body : Option PaymentTransaction) (n : Node) : Node × RepStatus :=
  match body with
  | none => (n, .error)
  | some t =>
    let r := is_duplicate_transaction hashFn n.dedup t
    if r.1.1 then
      ({ n with dedup := r.2 }, .duplicate r.1.2)
    else if (alookup t.id n.transactions).isSome then
      ({ n with dedup := r.2 }, .already_exists t.id)
    else
      ({ transactions := n.transactions ++ [(t.id, t)],
         transaction_log := n.transaction_log ++ [t],
         dedup := register_transaction hashFn now t r.2 }, .success t.id)

/-- Handling the same request body `k` times in a row, collecting the
responses. -/
def handle_replication_request_iter (hashFn : String → String) (now : Rat)
    (body : Option PaymentTransaction) : Nat → Node → Node × List RepStatus
  | 0, n => (n, [])
  | k + 1, n =>
      let r := handle_replication_request hashFn now body n
      let rest := handle_replication_request_iter hashFn now body k r.1
      (rest.1, r.2 :: rest.2)

/-- The host record store of the claim: the transaction dict and the
transaction log. -/
def host_store (n : Node) : List (String × PaymentTransaction) × List PaymentTransaction :=
  (n.transactions, n.transaction_log)

/-- The response family `{success, duplicate, already_exists}`. -/
def in_family : RepStatus → Bool
  | .success _ => true
  | .duplicate _ => true
  | .already_exists _ => true
  | .error => false

/-- How many entries of an association list carry the key `k`. -/
def countKey (k : String) (l : List (String × α)) : Nat :=
  (l.filter (fun p => decide (p.1 = k))).length

/-- A transaction illustrating the difference between the hash input of the
source and the hash input claimed by the specification: the float amount
`0.25` renders identically under both formats, but the sender is not
lower-cased by the source. -/
def c5ExTxn : PaymentTransaction :=
  { id := "txn-1", amountRepr := "0.25", amountRepr2f := "0.25",
    sender := "Alice", receiver := "bob", timestamp := 0,
    status := "pending", node_id := "node-1" }

/-- A well-formed transaction used to instantiate the replication and
deduplication theorems. -/
def exTxn : PaymentTransaction :=
  { id := "txn-9", amountRepr := "10.0", amountRepr2f := "10.00",
    sender := "alice", receiver := "bob", timestamp := 1,
    status := "pending", node_id := "node-1" }

/-- The comparison `key=lambda t: t.timestamp` of `sync_with_recovered_peer`. -/
def ts_le (a b : PaymentTransaction) : Bool := decide (a.timestamp ≤ b.timestamp)

/-- `transactions.sort(key=lambda t: t.timestamp)`: Python uses a stable
merge sort, modelled by `List.mergeSort`. -/
def sort_by_timestamp (txns : List PaymentTransaction) : List PaymentTransaction :=
  txns.mergeSort ts_le

/-- The batch slicing `transactions[i:i+10]` for `i = 0, 10, 20, …` with
`batch_size = 10`. -/
def chunks10 : List PaymentTransaction → List (List PaymentTransaction)
  | [] => []
  | x :: xs => (x :: xs.take 9) :: chunks10 (xs.drop 9)
termination_by l => l.length
decreasing_by simp [List.length_drop]; omega

/-- The sending loop of `sync_with_recovered_peer`: each batch is posted
and `reply` models the `successful_count` reported by the peer
(`_sync_batch_with_peer` succeeds exactly when it equals the batch size);
the loop breaks after the first failing batch.  Returns the batches
actually sent. -/
def send_batches (reply : List PaymentTransaction → Nat) :
    List (List PaymentTransaction) → List (List PaymentTransaction)
  | [] => []
  | b :: bs => b :: (if reply b = b.length then send_batches reply bs else [])

/-- `sync_with_recovered_peer`: nothing is sent for an empty store;
otherwise the store is sorted by timestamp, sliced into batches of 10 and
sent until the first failure. -/
def sync_with_recovered_peer (reply : List PaymentTransaction → Nat)
    (txns : List PaymentTransaction) : List (List PaymentTransaction) :=
  if txns.isEmpty then [] else send_batches reply (chunks10 (sort_by_timestamp txns))

/-- A two-record store exercising `sync_with_recovered_peer`. -/
def c8ExTxns : List PaymentTransaction := [exTxn, c5ExTxn]

/-! ## Theorems -/

/-- C1 (counterexample).  The claim demands that every non-rejected
AppendEntries turns the receiver into a Follower, in particular at equal
term while the receiver is a Candidate.  On `c1ExState` the request term
equals the current term, the request is not rejected (it succeeds), yet the
receiver stays Candidate. -/
theorem c1_counterexample :
    ¬ c1ExArgs.term < c1ExState.current_term ∧
    (handle_append_entries 1 c1ExArgs c1ExState).2.success = true ∧
    (handle_append_entries 1 c1ExArgs c1ExState).1.state ≠ RaftState.FOLLOWER := by
  refine ⟨by decide, by decide, by decide⟩

/-- C1 (amended).  For every incoming AppendEntries request: if the request
term is below the receiver term, the handler replies `(current_term, false)`
and changes no state; otherwise the receiver ends with the request term,
becomes Follower exactly when the request term is strictly greater (at equal
term a Candidate or Leader keeps its role), records the sender as
`current_leader`, and resets the election timer. -/
theorem c1_append_entries_term_discipline (now : Rat) (a : AppendEntriesArgs)
    (s : RaftConsensus) :
    if a.term < s.current_term then
      handle_append_entries now a s = (s, ⟨s.current_term, false⟩)
    else
      (handle_append_entries now a s).1.current_term = a.term ∧
      (handle_append_entries now a s).1.state =
        (if s.current_term < a.term then RaftState.FOLLOWER else s.state) ∧
      (handle_append_entries now a s).1.current_leader = some a.leader_id ∧
      (handle_append_entries now a s).1.last_election_time = now := by
  simp only [handle_append_entries]
  split_ifs <;> simp_all <;> omega

/-- C2 (counterexample).  Starting from the initial state, committing two
entries and then handling an AppendEntries that truncates the log to a
single entry leaves `commit_index = 2 > 1 = len(log)`: the claimed
invariant does not survive suffix truncation. -/
theorem c2_counterexample :
    ¬ (runRaftOps [c2Op1, c2Op2] initRaft).commit_index ≤
        (runRaftOps [c2Op1, c2Op2] initRaft).log.length := by
  decide

/-- C2 (amended).  `last_applied ≤ commit_index ≤ len(log)` is preserved by
`propose_transaction` and by applying committed entries, and by handling an
AppendEntries whose installed log is not shorter than the current
`commit_index` (in particular whenever `entries` is empty or
`prev_log_index + len(entries) ≥ commit_index`); an AppendEntries that
truncates the log below `commit_index` can break it. -/
theorem c2_commit_invariant_amended :
    (∀ (s : RaftConsensus) (txnId : String) (ok : Bool),
      commit_invariant s → commit_invariant (propose_transaction txnId ok s).1) ∧
    (∀ s : RaftConsensus,
      commit_invariant s → commit_invariant (apply_committed_entries s)) ∧
    (∀ (s : RaftConsensus) (now : Rat) (a : AppendEntriesArgs),
      commit_invariant s →
      (a.entries.isEmpty ∨ s.commit_index ≤ a.prev_log_index + a.entries.length) →
      commit_invariant (handle_append_entries now a s).1) := by
  refine ⟨?_, ?_, ?_⟩
  · intro s txnId ok hinv
    simp only [propose_transaction, apply_committed_entries]
    split_ifs <;> simp_all [commit_invariant] <;> omega
  · intro s hinv
    simp_all [commit_invariant, apply_committed_entries]
  · intro s now a hinv hside
    simp only [handle_append_entries]
    split_ifs with h1 h2 h3 h4 h5 h6 h7 h8 h9 h10 <;>
      simp_all [commit_invariant, List.isEmpty_iff] <;> omega

/-- C2 (witness). -/
theorem c2_witness :
    (commit_invariant exLeader ∧
      commit_invariant (propose_transaction "t1" true exLeader).1) ∧
    (commit_invariant initRaft ∧
      commit_invariant (apply_committed_entries initRaft)) ∧
    (commit_invariant initRaft ∧ (c1ExArgs.entries.isEmpty ∨
        initRaft.commit_index ≤ c1ExArgs.prev_log_index + c1ExArgs.entries.length) ∧
      commit_invariant (handle_append_entries 0 c1ExArgs initRaft).1) :=
  ⟨⟨by decide, c2_commit_invariant_amended.1 exLeader "t1" true (by decide)⟩,
   ⟨by decide, c2_commit_invariant_amended.2.1 initRaft (by decide)⟩,
   ⟨by decide, Or.inl (by decide),
    c2_commit_invariant_amended.2.2 initRaft 0 c1ExArgs (by decide) (Or.inl (by decide))⟩⟩

/-- C3.  For every incoming RequestVote request, the vote is granted iff the
request term is at least the receiver term, the vote slot for the adopted
term is free or already the candidate, and the candidate log is at least as
up to date; the election timer is reset exactly when the vote is granted. -/
theorem c3_request_vote_grant_iff (now : Rat) (a : RequestVoteArgs) (s : RaftConsensus) :
    ((handle_request_vote now a s).2.vote_granted = true ↔
      (s.current_term ≤ a.term ∧
        ((if s.current_term < a.term then none else s.voted_for) = none ∨
         (if s.current_term < a.term then none else s.voted_for) = some a.candidate_id) ∧
        is_log_up_to_date s.log a = true)) ∧
    (handle_request_vote now a s).1.last_election_time =
      (if (handle_request_vote now a s).2.vote_granted = true then now
       else s.last_election_time) := by
  by_cases h1 : a.term < s.current_term
  · have h2 : ¬ s.current_term ≤ a.term := by omega
    simp [handle_request_vote, h1, h2]
  · have h4 : s.current_term ≤ a.term := by omega
    by_cases h2 : s.current_term < a.term
    · by_cases h3 : is_log_up_to_date s.log a = true <;>
        simp [handle_request_vote, if_neg h1, if_pos h2, h3, h4]
    · by_cases h3 : is_log_up_to_date s.log a = true <;>
        by_cases h5 : s.voted_for = none ∨ s.voted_for = some a.candidate_id <;>
          simp [handle_request_vote, if_neg h1, if_neg h2, h3, h4, h5]

/-- C7 (counterexample).  The claim demands `next_index[peer] = len(log)+1`
after a recovery notification even when the peer is already tracked; on
`c7ExState` the stale value 5 survives while `len(log)+1 = 1`. -/
theorem c7_counterexample :
    alookup "peer-1" (handle_peer_recovery "peer-1" c7ExState).next_index ≠
      some (c7ExState.log.length + 1) := by
  decide

/-- C7 (amended).  A recovery notification initialises
`next_index[peer] = len(log)+1` and `match_index[peer] = 0` only when the
peer is absent from `next_index`; otherwise the state is unchanged. -/
theorem c7_peer_recovery_amended (peer : String) (s : RaftConsensus) :
    if alookup peer s.next_index = none then
      alookup peer (handle_peer_recovery peer s).next_index = some (s.log.length + 1) ∧
      alookup peer (handle_peer_recovery peer s).match_index = some 0
    else handle_peer_recovery peer s = s := by
  unfold handle_peer_recovery
  cases h : alookup peer s.next_index <;> simp [h, alookup]

/-- C9.  When `propose_transaction` runs on a Leader and the quorum fails,
the call returns false, the log has grown by exactly the appended
`(current_term, id)` entry, and `commit_index` and `last_applied` are
unchanged. -/
theorem c9_propose_failure_frame (s : RaftConsensus) (txnId : String)
    (h : s.state = RaftState.LEADER) :
    (propose_transaction txnId false s).2 = false ∧
    (propose_transaction txnId false s).1.log = s.log ++ [(s.current_term, txnId)] ∧
    (propose_transaction txnId false s).1.commit_index = s.commit_index ∧
    (propose_transaction txnId false s).1.last_applied = s.last_applied := by
  simp [propose_transaction, h]

/-- C9 (witness). -/
theorem c9_witness :
    exLeader.state = RaftState.LEADER ∧
    ((propose_transaction "t1" false exLeader).2 = false ∧
     (propose_transaction "t1" false exLeader).1.log =
       exLeader.log ++ [(exLeader.current_term, "t1")] ∧
     (propose_transaction "t1" false exLeader).1.commit_index = exLeader.commit_index ∧
     (propose_transaction "t1" false exLeader).1.last_applied = exLeader.last_applied) :=
  ⟨by decide, c9_propose_failure_frame exLeader "t1" (by decide)⟩

/-- Helper: the smoothing step at current offset 10 with three samples of
offset 0 yields `0.7 * 10 + 0.3 * 0 = 7`. -/
theorem calculate_offset_example : calculate_offset 10 [0, 0, 0] = 7 := by
  simp [calculate_offset, filter_outliers, sampleMean, sqDevSum, weightedSum,
    List.range_succ]
  norm_num

/-- C6 (counterexample).  With current offset 10 and three fresh samples of
offset 0, `_calculate_offset` smooths the offset down to 7; a node whose
monotonic local clock reads 0 and then 1 around that recomputation observes
`Now() = 10` and then `Now() = 8`, so `Now()` is not monotonically
non-decreasing. -/
theorem c6_counterexample :
    (0 : Rat) ≤ 1 ∧
    get_synchronized_time 1 (calculate_offset 10 [0, 0, 0]) <
      get_synchronized_time 0 10 := by
  constructor
  · norm_num
  · rw [calculate_offset_example]
    norm_num [get_synchronized_time]

/-- C6 (amended).  `Now()` is monotonically non-decreasing across
observations between which the offset is unchanged; across a recomputation
of the smoothed offset it is non-decreasing exactly when the offset
decrease does not exceed the elapsed local time — a smoothing step that
lowers the offset by more than the local clock advanced makes `Now()` go
backwards. -/
theorem c6_now_monotone_amended :
    (∀ l1 l2 offset : Rat, l1 ≤ l2 →
      get_synchronized_time l1 offset ≤ get_synchronized_time l2 offset) ∧
    (∀ (l1 l2 offset : Rat) (samples : List Rat), l1 ≤ l2 →
      offset - calculate_offset offset samples ≤ l2 - l1 →
      get_synchronized_time l1 offset ≤
        get_synchronized_time l2 (calculate_offset offset samples)) := by
  constructor
  · intro l1 l2 offset h
    simp only [get_synchronized_time]
    linarith
  · intro l1 l2 offset samples h hdrop
    simp only [get_synchronized_time]
    linarith

/-- C6 (witness). -/
theorem c6_witness :
    ((0 : Rat) ≤ 5 ∧
      get_synchronized_time 0 10 ≤ get_synchronized_time 5 10) ∧
    ((0 : Rat) ≤ 5 ∧ (10 : Rat) - calculate_offset 10 [0, 0, 0] ≤ 5 - 0 ∧
      get_synchronized_time 0 10 ≤
        get_synchronized_time 5 (calculate_offset 10 [0, 0, 0])) :=
  ⟨⟨by norm_num, c6_now_monotone_amended.1 0 5 10 (by norm_num)⟩,
   ⟨by norm_num, by rw [calculate_offset_example]; norm_num,
    c6_now_monotone_amended.2 0 5 10 [0, 0, 0] (by norm_num)
      (by rw [calculate_offset_example]; norm_num)⟩⟩

/-- Helper: the bucket scan finds something iff the bucket holds an id
other than the incoming one. -/
theorem find_other_id_isSome_iff (tid : String) (l : List String) :
    (find_other_id tid l).isSome = true ↔ ∃ o ∈ l, o ≠ tid := by
  induction l with
  | nil => simp [find_other_id]
  | cons x xs ih =>
    by_cases h : x = tid
    · subst h
      simpa [find_other_id] using ih
    · simp only [find_other_id, if_neg h, Option.isSome_some]
      constructor
      · intro _
        exact ⟨x, by simp, h⟩
      · intro _
        trivial

/-- C5 (counterexample).  On `c5ExTxn` the string hashed by the duplicate
decision is `0.25:Alice:bob:node-1` while the specification formula yields
`0.25:alice:bob:node-1`: the source does not normalise the parties, so the
content hash is not the SHA-256 of the claimed string. -/
theorem c5_counterexample :
    transaction_content c5ExTxn ≠ claimed_content c5ExTxn := by
  decide

/-- C5 (amended).  The duplicate decision hashes the raw string
`amount:sender:receiver` with `:node_id` appended when the node id is
non-empty; the formula of the claim instead describes the input of the
separate semantic hash with the origin node appended, and that hash is not
consulted.  A duplicate is reported iff the id is already processed, or the
content hash passes the bloom filter and its bucket holds some other id. -/
theorem c5_dedup_hash_amended (hashFn : String → String)
    (d : DeduplicationManager) (t : PaymentTransaction) :
    claimed_content t = semantic_content t ++ ":" ++ t.node_id ∧
    transaction_content t =
      (if t.node_id = "" then t.amountRepr ++ ":" ++ t.sender ++ ":" ++ t.receiver
       else t.amountRepr ++ ":" ++ t.sender ++ ":" ++ t.receiver ++ ":" ++ t.node_id) ∧
    ((is_duplicate_transaction hashFn d t).1.1 = true ↔
      (t.id ∈ d.processed_transactions ∨
        (hashFn (transaction_content t) ∈ d.bloom_filter ∧
          ∃ bucket,
            alookup (hashFn (transaction_content t)) d.hash_to_transactions = some bucket ∧
            ∃ o ∈ bucket, o ≠ t.id))) := by
  refine ⟨rfl, by simp [transaction_content], ?_⟩
  by_cases hp : t.id ∈ d.processed_transactions
  · simp [is_duplicate_transaction, hp]
  · by_cases hb : hashFn (transaction_content t) ∈ d.bloom_filter
    · simp only [is_duplicate_transaction, if_neg hp, if_pos hb]
      cases hals : alookup (hashFn (transaction_content t)) d.hash_to_transactions with
      | none => simp [hals, hp, hb]
      | some bucket =>
        rw [show (∃ b, some bucket = some b ∧ ∃ o ∈ b, o ≠ t.id) ↔
              (∃ o ∈ bucket, o ≠ t.id) from by simp]
        rw [← find_other_id_isSome_iff]
        cases hfind : find_other_id t.id bucket with
        | none => simp [hfind, hp, hb]
        | some o => simp [hfind, hp, hb]
    · simp [is_duplicate_transaction, hp, hb]

/-- Helper: appending an id to its hash bucket leaves the id in the bucket
found under that hash. -/
theorem bucket_append_mem (h tid : String) (m : List (String × List String)) :
    ∃ bucket, alookup h (bucket_append h tid m) = some bucket ∧ tid ∈ bucket := by
  induction m with
  | nil => exact ⟨[tid], by simp [bucket_append, alookup], by simp⟩
  | cons p rest ih =>
    by_cases hp : p.1 = h
    · exact ⟨p.2 ++ [tid], by simp [bucket_append, hp, alookup], by simp⟩
    · obtain ⟨b, hb1, hb2⟩ := ih
      exact ⟨b, by simp [bucket_append, hp, alookup, hb1], hb2⟩

/-- C10.  Registering a transaction marks its id processed, stores the
content hash under the id, appends the id to the hash bucket, adds the hash
to the bloom set and records the timestamp; afterwards the duplicate query
answers `(True, id)` for any transaction with the same id. -/
theorem c10_register_roundtrip (hashFn : String → String) (now : Rat)
    (d : DeduplicationManager) (t tp : PaymentTransaction) (h : tp.id = t.id) :
    (is_duplicate_transaction hashFn (register_transaction hashFn now t d) tp).1 =
      (true, some t.id) ∧
    t.id ∈ (register_transaction hashFn now t d).processed_transactions ∧
    alookup t.id (register_transaction hashFn now t d).transaction_hashes =
      some (hashFn (transaction_content t)) ∧
    hashFn (transaction_content t) ∈ (register_transaction hashFn now t d).bloom_filter ∧
    (∃ bucket,
        alookup (hashFn (transaction_content t))
          (register_transaction hashFn now t d).hash_to_transactions = some bucket ∧
        t.id ∈ bucket) ∧
    alookup t.id (register_transaction hashFn now t d).transaction_timestamps = some now := by
  have hmem : t.id ∈ (register_transaction hashFn now t d).processed_transactions := by
    simp [register_transaction, List.mem_insert_iff]
  refine ⟨?_, hmem, ?_, ?_, ?_, ?_⟩
  · have hmem2 : tp.id ∈ (register_transaction hashFn now t d).processed_transactions := by
      rw [h]; exact hmem
    simp [is_duplicate_transaction, hmem2, hmem, h]
  · simp [register_transaction, alookup]
  · simp [register_transaction, List.mem_insert_iff]
  · exact bucket_append_mem _ _ _
  · simp [register_transaction, alookup]

/-- C10 (witness). -/
theorem c10_witness :
    exTxn.id = exTxn.id ∧
    ((is_duplicate_transaction (fun s => s)
        (register_transaction (fun s => s) 0 exTxn emptyDedup) exTxn).1 =
      (true, some exTxn.id) ∧
    exTxn.id ∈ (register_transaction (fun s => s) 0 exTxn emptyDedup).processed_transactions ∧
    alookup exTxn.id (register_transaction (fun s => s) 0 exTxn emptyDedup).transaction_hashes =
      some ((fun s => s) (transaction_content exTxn)) ∧
    (fun s => s) (transaction_content exTxn) ∈
      (register_transaction (fun s => s) 0 exTxn emptyDedup).bloom_filter ∧
    (∃ bucket,
        alookup ((fun s => s) (transaction_content exTxn))
          (register_transaction (fun s => s) 0 exTxn emptyDedup).hash_to_transactions =
            some bucket ∧
        exTxn.id ∈ bucket) ∧
    alookup exTxn.id
      (register_transaction (fun s => s) 0 exTxn emptyDedup).transaction_timestamps =
        some 0) :=
  ⟨rfl, c10_register_roundtrip (fun s => s) 0 emptyDedup exTxn exTxn rfl⟩

/-- Helper: the duplicate query mutates at most the duplicate-attempt
counters. -/
theorem is_duplicate_fields (hashFn : String → String) (d : DeduplicationManager)
    (t : PaymentTransaction) :
    ((is_duplicate_transaction hashFn d t).2).processed_transactions =
        d.processed_transactions ∧
    ((is_duplicate_transaction hashFn d t).2).bloom_filter = d.bloom_filter ∧
    ((is_duplicate_transaction hashFn d t).2).hash_to_transactions =
        d.hash_to_transactions := by
  by_cases hp : t.id ∈ d.processed_transactions
  · simp [is_duplicate_transaction, hp]
  · by_cases hb : hashFn (transaction_content t) ∈ d.bloom_filter
    · cases hals : alookup (hashFn (transaction_content t)) d.hash_to_transactions with
      | none => simp [is_duplicate_transaction, hp, hb, hals]
      | some bucket =>
        cases hfind : find_other_id t.id bucket with
        | none => simp [is_duplicate_transaction, hp, hb, hals, hfind]
        | some o => simp [is_duplicate_transaction, hp, hb, hals, hfind]
    · simp [is_duplicate_transaction, hp, hb]

/-- Helper: the duplicate verdict depends only on the processed set, the
bloom set and the hash buckets. -/
theorem is_duplicate_congr (hashFn : String → String) (d1 d2 : DeduplicationManager)
    (t : PaymentTransaction)
    (hp : d1.processed_transactions = d2.processed_transactions)
    (hb : d1.bloom_filter = d2.bloom_filter)
    (hm : d1.hash_to_transactions = d2.hash_to_transactions) :
    (is_duplicate_transaction hashFn d1 t).1 = (is_duplicate_transaction hashFn d2 t).1 := by
  by_cases hpm : t.id ∈ d2.processed_transactions
  · simp [is_duplicate_transaction, hp, hb, hm, hpm]
  · by_cases hbm : hashFn (transaction_content t) ∈ d2.bloom_filter
    · cases hals : alookup (hashFn (transaction_content t)) d2.hash_to_transactions with
      | none => simp [is_duplicate_transaction, hp, hb, hm, hpm, hbm, hals]
      | some bucket =>
        cases hfind : find_other_id t.id bucket with
        | none => simp [is_duplicate_transaction, hp, hb, hm, hpm, hbm, hals, hfind]
        | some o => simp [is_duplicate_transaction, hp, hb, hm, hpm, hbm, hals, hfind]
    · simp [is_duplicate_transaction, hp, hb, hm, hpm, hbm]

/-- Helper: a negative duplicate query leaves the deduplication state
untouched. -/
theorem is_duplicate_false_state (hashFn : String → String) (d : DeduplicationManager)
    (t : PaymentTransaction) (h : (is_duplicate_transaction hashFn d t).1.1 = false) :
    (is_duplicate_transaction hashFn d t).2 = d := by
  by_cases hp : t.id ∈ d.processed_transactions
  · simp [is_duplicate_transaction, hp] at h
  · by_cases hb : hashFn (transaction_content t) ∈ d.bloom_filter
    · cases hals : alookup (hashFn (transaction_content t)) d.hash_to_transactions with
      | none => simp [is_duplicate_transaction, hp, hb, hals]
      | some bucket =>
        cases hfind : find_other_id t.id bucket with
        | none => simp [is_duplicate_transaction, hp, hb, hals, hfind]
        | some o => simp [is_duplicate_transaction, hp, hb, hals, hfind] at h
    · simp [is_duplicate_transaction, hp, hb]

/-- Helper: a just-registered transaction is flagged as a duplicate. -/
theorem is_duplicate_after_register (hashFn : String → String) (now : Rat)
    (t : PaymentTransaction) (d : DeduplicationManager) :
    (is_duplicate_transaction hashFn (register_transaction hashFn now t d) t).1.1 = true := by
  have hmem : t.id ∈ (register_transaction hashFn now t d).processed_transactions := by
    simp [register_transaction, List.mem_insert_iff]
  simp [is_duplicate_transaction, hmem]

/-- Helper: a replication request that is a duplicate or whose id is
already stored leaves the host store unchanged. -/
theorem handle_host_frame (hashFn : String → String) (now : Rat)
    (t : PaymentTransaction) (m : Node)
    (h : (is_duplicate_transaction hashFn m.dedup t).1.1 = true ∨
      (alookup t.id m.transactions).isSome = true) :
    host_store (handle_replication_request hashFn now (some t) m).1 = host_store m := by
  rcases h with h | h
  · simp [handle_replication_request, h, host_store]
  · by_cases hd : (is_duplicate_transaction hashFn m.dedup t).1.1 = true
    · simp [handle_replication_request, hd, host_store]
    · simp [handle_replication_request, hd, h, host_store]

/-- Helper: after a replication request is handled, the same transaction is
either flagged as duplicate or already stored. -/
theorem handle_post_saturated (hashFn : String → String) (now : Rat)
    (t : PaymentTransaction) (n : Node) :
    (is_duplicate_transaction hashFn
        (handle_replication_request hashFn now (some t) n).1.dedup t).1.1 = true ∨
    (alookup t.id
        (handle_replication_request hashFn now (some t) n).1.transactions).isSome = true := by
  by_cases hdup : (is_duplicate_transaction hashFn n.dedup t).1.1 = true
  · left
    have hfields := is_duplicate_fields hashFn n.dedup t
    have hcongr := is_duplicate_congr hashFn
      (is_duplicate_transaction hashFn n.dedup t).2 n.dedup t
      hfields.1 hfields.2.1 hfields.2.2
    simp only [handle_replication_request, hdup, if_true]
    calc (is_duplicate_transaction hashFn
            ({ n with dedup := (is_duplicate_transaction hashFn n.dedup t).2 } : Node).dedup
            t).1.1
        = (is_duplicate_transaction hashFn n.dedup t).1.1 := by rw [hcongr]
      _ = true := hdup
  · by_cases hex : (alookup t.id n.transactions).isSome = true
    · right
      have hfalse : (is_duplicate_transaction hashFn n.dedup t).2 = n.dedup :=
        is_duplicate_false_state hashFn n.dedup t (by simpa using hdup)
      simp [handle_replication_request, hdup, hex, hfalse]
    · left
      have hstate : (handle_replication_request hashFn now (some t) n).1.dedup =
          register_transaction hashFn now t (is_duplicate_transaction hashFn n.dedup t).2 := by
        simp [handle_replication_request, hdup, hex]
      rw [hstate]
      exact is_duplicate_after_register hashFn now t _

/-- Helper: handling the same body twice in a row leaves the host store
where the first call put it. -/
theorem handle_replication_stable (hashFn : String → String) (now : Rat)
    (t : PaymentTransaction) (n : Node) :
    host_store (handle_replication_request hashFn now (some t)
        (handle_replication_request hashFn now (some t) n).1).1 =
      host_store (handle_replication_request hashFn now (some t) n).1 :=
  handle_host_frame hashFn now t _ (handle_post_saturated hashFn now t n)

/-- Helper: iterating after a first call never moves the host store
again. -/
theorem iter_host_stable (hashFn : String → String) (now : Rat)
    (t : PaymentTransaction) :
    ∀ (k : Nat) (n : Node),
      host_store (handle_replication_request_iter hashFn now (some t) k
          (handle_replication_request hashFn now (some t) n).1).1 =
        host_store (handle_replication_request hashFn now (some t) n).1 := by
  intro k
  induction k with
  | zero => intro n; simp [handle_replication_request_iter]
  | succ k ih =>
    intro n
    simp only [handle_replication_request_iter]
    exact (ih ((handle_replication_request hashFn now (some t) n).1)).trans
      (handle_replication_stable hashFn now t n)

/-- Helper: every response to a well-formed body is in the family. -/
theorem handle_some_in_family (hashFn : String → String) (now : Rat)
    (t : PaymentTransaction) (n : Node) :
    in_family (handle_replication_request hashFn now (some t) n).2 = true := by
  simp only [handle_replication_request]
  split_ifs <;> simp [in_family]

/-- Helper: all responses of an iterated well-formed request are in the
family. -/
theorem handle_iter_family (hashFn : String → String) (now : Rat)
    (t : PaymentTransaction) :
    ∀ (k : Nat) (n : Node),
      ((handle_replication_request_iter hashFn now (some t) k n).2.all in_family) = true := by
  intro k
  induction k with
  | zero => intro n; simp [handle_replication_request_iter]
  | succ k ih =>
    intro n
    simp [handle_replication_request_iter, handle_some_in_family, ih]

/-- C4.  Handling the same well-formed `/replicate` body `k ≥ 1` times
leaves the host store exactly where one handling leaves it, every response
is in the family `{success, duplicate, already_exists}`, and a fresh node
ends up with exactly one copy of the record. -/
theorem c4_replicate_idempotent (hashFn : String → String) (now : Rat)
    (t : PaymentTransaction) (k : Nat) (s : Node) (hk : 1 ≤ k) :
    host_store (handle_replication_request_iter hashFn now (some t) k s).1 =
      host_store (handle_replication_request_iter hashFn now (some t) 1 s).1 ∧
    ((handle_replication_request_iter hashFn now (some t) k s).2.all in_family) = true ∧
    countKey t.id
      (handle_replication_request_iter hashFn now (some t) k emptyNode).1.transactions = 1 := by
  obtain ⟨j, rfl⟩ : ∃ j, k = j + 1 := ⟨k - 1, by omega⟩
  refine ⟨?_, handle_iter_family hashFn now t (j + 1) s, ?_⟩
  · simp only [handle_replication_request_iter]
    exact iter_host_stable hashFn now t j s
  · have hhost := iter_host_stable hashFn now t j emptyNode
    have htrans :
        (handle_replication_request_iter hashFn now (some t) (j + 1) emptyNode).1.transactions =
          (handle_replication_request hashFn now (some t) emptyNode).1.transactions := by
      simp only [handle_replication_request_iter]
      exact congrArg Prod.fst hhost
    rw [htrans]
    have hfirst : (handle_replication_request hashFn now (some t) emptyNode).1.transactions =
        [(t.id, t)] := by
      simp [handle_replication_request, is_duplicate_transaction, emptyNode, emptyDedup, alookup]
    rw [hfirst]
    simp [countKey]

/-- C4 (witness). -/
theorem c4_witness :
    1 ≤ 2 ∧
    (host_store (handle_replication_request_iter (fun s => s) 0 (some exTxn) 2 emptyNode).1 =
        host_store (handle_replication_request_iter (fun s => s) 0 (some exTxn) 1 emptyNode).1 ∧
      ((handle_replication_request_iter (fun s => s) 0 (some exTxn) 2 emptyNode).2.all
        in_family) = true ∧
      countKey exTxn.id
        (handle_replication_request_iter (fun s => s) 0 (some exTxn) 2
          emptyNode).1.transactions = 1) :=
  ⟨by decide, c4_replicate_idempotent (fun s => s) 0 exTxn 2 emptyNode (by decide)⟩

/-- Helper: the batches tile the sliced list. -/
theorem chunks10_flatten : ∀ l : List PaymentTransaction, (chunks10 l).flatten = l := by
  intro l
  induction l using chunks10.induct with
  | case1 => simp [chunks10]
  | case2 x xs ih =>
    simp [chunks10, ih, List.take_append_drop]

/-- Helper: every batch holds at most 10 records. -/
theorem chunks10_batch_le :
    ∀ l : List PaymentTransaction, ∀ b ∈ chunks10 l, b.length ≤ 10 := by
  intro l
  induction l using chunks10.induct with
  | case1 => simp [chunks10]
  | case2 x xs ih =>
    intro b hb
    simp only [chunks10, List.mem_cons] at hb
    rcases hb with rfl | hb
    · simp only [List.length_cons, List.length_take]
      omega
    · exact ih b hb

/-- Helper: the last element survives a cons onto a non-empty list. -/
theorem getLast?_cons_ne {α : Type _} (a : α) {l : List α} (h : l ≠ []) :
    (a :: l).getLast? = l.getLast? := by
  cases l with
  | nil => exact absurd rfl h
  | cons b t => exact List.getLast?_cons_cons

/-- Helper: the sending loop emits a non-empty prefix of the batch list,
every emitted batch but possibly the last reports full success, and when
the loop stopped early the last emitted batch did not. -/
theorem send_batches_spec (reply : List PaymentTransaction → Nat) :
    ∀ cs : List (List PaymentTransaction),
      ∃ k, k ≤ cs.length ∧ (cs ≠ [] → 1 ≤ k) ∧
        send_batches reply cs = cs.take k ∧
        (∀ b ∈ (send_batches reply cs).dropLast, reply b = b.length) ∧
        (send_batches reply cs ≠ cs →
          ∃ lastb, (send_batches reply cs).getLast? = some lastb ∧
            reply lastb ≠ lastb.length) := by
  intro cs
  induction cs with
  | nil =>
    exact ⟨0, by simp [send_batches], by simp, by simp [send_batches],
      by simp [send_batches], by simp [send_batches]⟩
  | cons b bs ih =>
    obtain ⟨k, hk, hk1, hsend, hdrop, hlast⟩ := ih
    by_cases hr : reply b = b.length
    · refine ⟨k + 1, by simpa using hk, fun _ => by omega, ?_, ?_, ?_⟩
      · simp [send_batches, hr, hsend]
      · intro c hc
        by_cases hnil : send_batches reply bs = []
        · simp [send_batches, hr, hnil] at hc
        · rw [show send_batches reply (b :: bs) =
              b :: send_batches reply bs from by simp [send_batches, hr]] at hc
          rw [List.dropLast_cons_of_ne_nil hnil] at hc
          rcases List.mem_cons.mp hc with rfl | hc
          · exact hr
          · exact hdrop c hc
      · intro hne
        have hne2 : send_batches reply bs ≠ bs := by
          intro hcontr
          apply hne
          simp [send_batches, hr, hcontr]
        obtain ⟨lastb, hl1, hl2⟩ := hlast hne2
        have hnil : send_batches reply bs ≠ [] := by
          intro hcontr
          have htake : bs.take k = [] := by rw [← hsend]; exact hcontr
          rcases List.take_eq_nil_iff.mp htake with h0 | h0
          · by_cases hbs : bs = []
            · exact hne2 (by rw [hcontr, hbs])
            · have := hk1 hbs
              omega
          · exact hne2 (by rw [hcontr, h0])
        refine ⟨lastb, ?_, hl2⟩
        rw [show send_batches reply (b :: bs) =
            b :: send_batches reply bs from by simp [send_batches, hr]]
        rw [getLast?_cons_ne b hnil]
        exact hl1
    · refine ⟨1, by simp, fun _ => le_refl 1, ?_, ?_, ?_⟩
      · simp [send_batches, hr]
      · intro c hc
        simp [send_batches, hr] at hc
      · intro hne
        refine ⟨b, ?_, hr⟩
        simp [send_batches, hr]

/-- C8.  For a non-empty store, the sync sends the records sorted ascending
by timestamp, sliced into consecutive batches of at most 10; the batches
actually sent form a non-empty prefix of that slicing, every sent batch
except possibly the last reported a full `successful_count`, and when the
sync stopped before the end the last sent batch did not. -/
theorem c8_sync_sorted_batches (reply : List PaymentTransaction → Nat)
    (txns : List PaymentTransaction) (h : txns ≠ []) :
    List.Perm (sort_by_timestamp txns) txns ∧
    (sort_by_timestamp txns).Pairwise (fun a b => a.timestamp ≤ b.timestamp) ∧
    (chunks10 (sort_by_timestamp txns)).flatten = sort_by_timestamp txns ∧
    (∀ b ∈ chunks10 (sort_by_timestamp txns), b.length ≤ 10) ∧
    (∃ k, 1 ≤ k ∧ k ≤ (chunks10 (sort_by_timestamp txns)).length ∧
      sync_with_recovered_peer reply txns = (chunks10 (sort_by_timestamp txns)).take k) ∧
    (∀ b ∈ (sync_with_recovered_peer reply txns).dropLast, reply b = b.length) ∧
    (sync_with_recovered_peer reply txns ≠ chunks10 (sort_by_timestamp txns) →
      ∃ lastb, (sync_with_recovered_peer reply txns).getLast? = some lastb ∧
        reply lastb ≠ lastb.length) := by
  have hperm : List.Perm (sort_by_timestamp txns) txns := List.mergeSort_perm txns ts_le
  have hsorted : (sort_by_timestamp txns).Pairwise (fun a b => a.timestamp ≤ b.timestamp) := by
    have hs := @List.sorted_mergeSort PaymentTransaction ts_le
      (fun a b c hab hbc => by
        simp only [ts_le, decide_eq_true_eq] at hab hbc ⊢
        exact le_trans hab hbc)
      (fun a b => by
        simp only [ts_le]
        by_cases hc : a.timestamp ≤ b.timestamp
        · simp [hc]
        · simp [hc, le_of_not_le hc])
      txns
    unfold sort_by_timestamp
    exact hs.imp (fun hab => by simpa [ts_le] using hab)
  have hsortne : sort_by_timestamp txns ≠ [] := by
    intro hcontr
    have hpn : List.Perm ([] : List PaymentTransaction) txns := hcontr ▸ hperm
    exact h hpn.symm.eq_nil
  have hcsne : chunks10 (sort_by_timestamp txns) ≠ [] := by
    cases hsort : sort_by_timestamp txns with
    | nil => exact absurd hsort hsortne
    | cons x xs => simp [chunks10]
  have hsync : sync_with_recovered_peer reply txns =
      send_batches reply (chunks10 (sort_by_timestamp txns)) := by
    simp [sync_with_recovered_peer, List.isEmpty_iff, h]
  obtain ⟨k, hk, hk1, hsend, hdrop, hlast⟩ :=
    send_batches_spec reply (chunks10 (sort_by_timestamp txns))
  refine ⟨hperm, hsorted, chunks10_flatten _, chunks10_batch_le _, ?_, ?_, ?_⟩
  · exact ⟨k, hk1 hcsne, hk, by rw [hsync]; exact hsend⟩
  · intro b hb
    rw [hsync] at hb
    exact hdrop b hb
  · intro hne
    rw [hsync] at hne ⊢
    exact hlast hne

/-- C8 (witness). -/
theorem c8_witness :
    c8ExTxns ≠ [] ∧
    (List.Perm (sort_by_timestamp c8ExTxns) c8ExTxns ∧
    (sort_by_timestamp c8ExTxns).Pairwise (fun a b => a.timestamp ≤ b.timestamp) ∧
    (chunks10 (sort_by_timestamp c8ExTxns)).flatten = sort_by_timestamp c8ExTxns ∧
    (∀ b ∈ chunks10 (sort_by_timestamp c8ExTxns), b.length ≤ 10) ∧
    (∃ k, 1 ≤ k ∧ k ≤ (chunks10 (sort_by_timestamp c8ExTxns)).length ∧
      sync_with_recovered_peer (fun l => l.length) c8ExTxns =
        (chunks10 (sort_by_timestamp c8ExTxns)).take k) ∧
    (∀ b ∈ (sync_with_recovered_peer (fun l => l.length) c8ExTxns).dropLast,
      (fun l : List PaymentTransaction => l.length) b = b.length) ∧
    (sync_with_recovered_peer (fun l => l.length) c8ExTxns ≠
        chunks10 (sort_by_timestamp c8ExTxns) →
      ∃ lastb,
        (sync_with_recovered_peer (fun l => l.length) c8ExTxns).getLast? = some lastb ∧
        (fun l : List PaymentTransaction => l.length) lastb ≠ lastb.length)) :=
  ⟨by decide, c8_sync_sorted_batches (fun l => l.length) c8ExTxns (by decide)⟩

end Syncpay
